import Mathlib

/-!
Verification of the aepp-sdk-js state-channel client specification against
the repository sources.

The Merkle Patricia tree module (`MPTree` in `src/deprecated/index.ts`) is
embedded directly from its TypeScript source.  Buffers are byte lists; the
hex strings used as node-map keys are nibble lists, related to buffers by
`bufToHex` / `hexToBuf` (mirroring `Buffer.prototype.toString('hex')` and
`Buffer.from(s, 'hex')`).  The external `blake2b` hash composed with RLP
encoding is a parameter `hashRlp` of the development, exactly as the source
treats it as an imported collaborator.
-/

namespace AeppSdk

/-- Byte sequence, modelling a node `Buffer`. -/
abbrev Buffer := List Nat

/-- Hex string as a list of nibbles, the form `Buffer.toString('hex')` yields. -/
abbrev Hex := List Nat

/-- `Buffer.prototype.toString('hex')`: every byte becomes two nibbles. -/
def bufToHex : Buffer → Hex
  | [] => []
  | x :: rest => x / 16 :: x % 16 :: bufToHex rest

/-- `Buffer.from(s, 'hex')`: consecutive nibble pairs become bytes. -/
def hexToBuf : Hex → Buffer
  | a :: b :: rest => (16 * a + b) :: hexToBuf rest
  | _ => []

/-- Errors thrown by the MPTree module (`src/utils/errors`). -/
inductive MPTreeError where
  | merkleTreeHashMismatch
  | missingNodeInTree (msg : String)
  | unknownPathNibble (nibble : Nat)
  | unknownNodeLength (len : Nat)
  | argumentError (expected actual : Nat)
  | internalError (msg : String)
  deriving DecidableEq

/-- `NodeType` from the source. -/
inductive NodeType where
  | Branch
  | Extension
  | Leaf
  deriving DecidableEq

/-- Result shape of `MPTree.#parseNode`. -/
structure ParsedNode where
  type : NodeType
  value : Option Buffer := none
  path : Option Hex := none
  deriving DecidableEq

/-- `MPTree.#nodeHash`: hex digest of the blake2b hash of the node's RLP
encoding; `hashRlp` stands for the external `hash ∘ rlpEncode`. -/
def nodeHash (hashRlp : List Buffer → Buffer) (node : List Buffer) : Hex :=
  bufToHex (hashRlp node)

/-- `MPTree.#parseNode` from the source: 17 items form a branch; 2 items form
an extension or leaf depending on the high nibble of the first byte. -/
def parseNode (node : List Buffer) : Except MPTreeError ParsedNode :=
  if node.length = 17 then
    .ok { type := .Branch,
          value := if (node.getD 16 []).length ≠ 0 then some (node.getD 16 []) else none }
  else if node.length = 2 then
    let nibble := (node.getD 0 []).headD 0 / 16
    if nibble > 3 then .error (.unknownPathNibble nibble)
    else
      let type := if nibble ≤ 1 then NodeType.Extension else NodeType.Leaf
      let slice := if nibble = 0 ∨ nibble = 2 then 2 else 1
      .ok { type := type,
            value := if type = .Leaf then some (node.getD 1 []) else none,
            path := some ((bufToHex (node.getD 0 [])).drop slice) }
  else .error (.unknownNodeLength node.length)

/-- Keys of the node map. -/
def keysOf (m : List (Hex × List Buffer)) : List Hex := m.map Prod.fst

/-- Property access `this.#nodes[key]`. -/
def lookupKey : List (Hex × List Buffer) → Hex → Option (List Buffer)
  | [], _ => none
  | (k, v) :: rest, key => if k = key then some v else lookupKey rest key

/-- One JavaScript object assignment `obj[k] = v`: an existing key keeps its
position and gets the new value, a fresh key is appended. -/
def upsert : List (Hex × List Buffer) → Hex → List Buffer → List (Hex × List Buffer)
  | [], k, v => [(k, v)]
  | (k', v') :: rest, k, v =>
    if k' = k then (k', v) :: rest else (k', v') :: upsert rest k v

/-- `Object.fromEntries`: assignments applied left to right. -/
def fromEntries (l : List (Hex × List Buffer)) : List (Hex × List Buffer) :=
  l.foldl (fun m p => upsert m p.1 p.2) []

/-- The `MPTree` instance state: private fields `#rootHash`, `#nodes`,
`#isComplete`. -/
structure MPTree where
  rootHash : Hex
  nodes : List (Hex × List Buffer)
  isComplete : Bool
  deriving DecidableEq

/-- `MPTreeBinary = [Buffer, Array<[Buffer, Buffer[]]>]`. -/
abbrev MPTreeBinary := Buffer × List (Buffer × List Buffer)

/-- Branch-node child validation from the constructor: nonempty children among
the first 16 items must be 32 bytes long; a child missing from the node map
clears `#isComplete`. -/
def checkBranchChildren (nodes : List (Hex × List Buffer)) :
    List Buffer → Except MPTreeError Bool
  | [] => .ok true
  | n :: rest =>
    if n.length = 0 then checkBranchChildren nodes rest
    else if n.length ≠ 32 then .error (.argumentError 32 n.length)
    else
      match checkBranchChildren nodes rest with
      | .error e => .error e
      | .ok c => .ok ((lookupKey nodes (bufToHex n)).isSome && c)

/-- Validation of a single stored node, as performed by the constructor's
`forEach` body: hash check first, then parse, then the per-type checks.
The returned Bool is the node's contribution to `#isComplete`. -/
def checkNode (hashRlp : List Buffer → Buffer) (nodes : List (Hex × List Buffer))
    (key : Hex) (node : List Buffer) : Except MPTreeError Bool :=
  if nodeHash hashRlp node ≠ key then .error .merkleTreeHashMismatch
  else
    match parseNode node with
    | .error e => .error e
    | .ok parsed =>
      match parsed.type with
      | .Branch => checkBranchChildren nodes (node.take 16)
      | .Extension =>
        if lookupKey nodes (bufToHex (node.getD 1 [])) = none then
          .error (.missingNodeInTree "Can\x27t find a node by hash in extension node")
        else .ok true
      | .Leaf => .ok true

/-- The constructor's `forEach` over all stored entries, in insertion order. -/
def validateNodes (hashRlp : List Buffer → Buffer) (nodes : List (Hex × List Buffer)) :
    List (Hex × List Buffer) → Except MPTreeError Bool
  | [] => .ok true
  | (k, node) :: rest =>
    match checkNode hashRlp nodes k node with
    | .error e => .error e
    | .ok c =>
      match validateNodes hashRlp nodes rest with
      | .error e => .error e
      | .ok rest' => .ok (c && rest')

/-- Constructor core, after the root hash and node map have been decoded. -/
def mkFrom (hashRlp : List Buffer → Buffer) (rootHash : Hex)
    (nodes : List (Hex × List Buffer)) : Except MPTreeError MPTree :=
  match lookupKey nodes rootHash with
  | none =>
    if nodes.length ≠ 0 then .error (.missingNodeInTree "Can\x27t find a node by root hash")
    else .ok { rootHash := rootHash, nodes := nodes, isComplete := false }
  | some _ =>
    match validateNodes hashRlp nodes nodes with
    | .error e => .error e
    | .ok complete => .ok { rootHash := rootHash, nodes := nodes, isComplete := complete }

/-- The node map decoded from a binary: `Object.fromEntries(binary[1].map(...))`. -/
def nodesOfBinary (binary : MPTreeBinary) : List (Hex × List Buffer) :=
  fromEntries (binary.2.map fun p => (bufToHex p.1, p.2))

/-- `new MPTree(binary)`: the deserializing constructor. -/
def mkMPTree (hashRlp : List Buffer → Buffer) (binary : MPTreeBinary) :
    Except MPTreeError MPTree :=
  mkFrom hashRlp (bufToHex binary.1) (nodesOfBinary binary)

/-- `MPTree.prototype.serialize`. -/
def MPTree.serialize (t : MPTree) : MPTreeBinary :=
  (hexToBuf t.rootHash, t.nodes.map fun p => (hexToBuf p.1, p.2))

/-- `MPTree.prototype.isEqual`: root hash comparison. -/
def MPTree.isEqual (t1 t2 : MPTree) : Bool := decide (t1.rootHash = t2.rootHash)

/-- `MPTree.prototype.get`, with explicit fuel for the `while (true)` loop;
`none` means the fuel ran out, `some` carries the JS outcome (a thrown error
or the returned optional value). -/
def MPTree.getAux (t : MPTree) : Nat → Hex → Hex → Option (Except MPTreeError (Option Buffer))
  | 0, _, _ => none
  | fuel + 1, searchFrom, key =>
    match lookupKey t.nodes searchFrom with
    | none =>
      if t.isComplete then some (.error (.internalError "Can\x27t find node in complete tree"))
      else some (.ok none)
    | some node =>
      match parseNode node with
      | .error e => some (.error e)
      | .ok parsed =>
        match parsed.type with
        | .Branch =>
          if key = [] then some (.ok parsed.value)
          else t.getAux fuel (bufToHex (node.getD (key.headD 0) [])) (key.drop 1)
        | .Extension =>
          let path := parsed.path.getD []
          if key.take path.length ≠ path then some (.ok none)
          else t.getAux fuel (bufToHex (node.getD 1 [])) (key.drop path.length)
        | .Leaf =>
          if parsed.path.getD [] ≠ key then some (.ok none) else some (.ok parsed.value)

/-- Entry point of `get`: the search starts at the root hash. -/
def MPTree.get (t : MPTree) (fuel : Nat) (key : Hex) :
    Option (Except MPTreeError (Option Buffer)) :=
  t.getAux fuel t.rootHash key

/-!
## State-channel client

The channel client implementation (`src/channel/index.ts`, `internal.ts`,
`handlers.ts` of the SDK) is not among the sources; only its integration
tests (`test/integration/channel.ts`) are.  The definitions below are
therefore modelled from the specification, as their doc comments state.
-/

/-- Modelled from the spec: update sub-operation kinds of the missing channel
module (spec section 3, "Update": OffChainTransfer, OffChainDeposit,
OffChainWithdrawal, OffChainNewContract, OffChainCallContract, OffChainMeta);
amounts are decimal strings over the wire (spec section 4.5). -/
inductive UpdateOp where
  | offChainTransfer (amount fromAddr toAddr : String)
  | offChainDeposit (amount fromAddr : String)
  | offChainWithdrawal (amount toAddr : String)
  | offChainNewContract (owner code callData deposit : String) (vmVersion abiVersion : Nat)
  | offChainCallContract (caller contract : String) (abiVersion : Nat) (amount callData : String)
  | offChainMeta (data : String)
  deriving DecidableEq

/-- Modelled from the spec: the transaction blobs exchanged by the missing
channel module with the external transaction builder (spec sections 4.4, 6). -/
inductive TxBlob where
  | channelCreate (initiator responder : String)
      (initiatorAmount responderAmount lockPeriod : Nat)
  | channelOffChain (round : Nat) (updates : List UpdateOp)
  | channelDeposit (round : Nat) (updates : List UpdateOp)
  | channelWithdraw (round : Nat) (updates : List UpdateOp)
  deriving DecidableEq

/-- Transaction tags reported by the external `unpackTx`. -/
inductive TxType where
  | channelCreateTx
  | channelOffChainTx
  | channelDepositTx
  | channelWithdrawTx
  deriving DecidableEq

/-- Modelled from the spec: the tag `unpackTx` assigns to a blob built by the
missing channel module. -/
def txTypeOf : TxBlob → TxType
  | .channelCreate .. => .channelCreateTx
  | .channelOffChain .. => .channelOffChainTx
  | .channelDeposit .. => .channelDepositTx
  | .channelWithdraw .. => .channelWithdrawTx

/-- Modelled from the spec: the sign-broker return convention of the missing
channel module (spec section 4.3): a blob is a signed transaction, an integer
is a user-defined abort code, a null is a generic rejection. -/
inductive SignResult where
  | signed (tx : TxBlob)
  | abort (code : Int)
  | reject
  deriving DecidableEq

/-- Modelled from the spec: channel `status` values (spec section 3); the
constructor `opened` models the status string `open`. -/
inductive ChannelStatus where
  | connecting
  | awaitingOnChainTx
  | awaitingOnChainConfirmation
  | awaitingReestablish
  | opened
  | awaitingUpdate
  | disconnected
  | closing
  | closed
  | died
  deriving DecidableEq

/-- Modelled from the spec: the mutable channel-session state of the missing
channel module (spec section 3: `status`, `round`, `fsmId`, `lastSignedTx`;
`round` is undefined until recovered, hence an Option). -/
structure ChannelState where
  status : ChannelStatus
  round : Option Nat
  fsmId : Option String
  lastSignedTx : Option TxBlob
  deriving DecidableEq

/-- Modelled from the spec: one invocation of a caller signer by the missing
channel module; `tag = none` is the untagged surface (spec section 4.3). -/
structure SignRequest where
  tag : Option String
  tx : TxBlob
  updates : List UpdateOp
  deriving DecidableEq

/-- Modelled from the spec: terminal outcome of a caller action
(`{accepted, signedTx?, errorCode?, errorMessage?}`, spec sections 4.4, 7). -/
structure AdvanceResult where
  accepted : Bool
  signedTx : Option TxBlob
  errorCode : Option Int
  errorMessage : Option String
  deriving DecidableEq

/-- Modelled from the spec: synchronous argument-validation errors of the
action surface (spec section 7 taxonomy). -/
inductive ChannelActionError where
  | illegalArgument (msg : String)
  | insufficientBalance (msg : String)
  deriving DecidableEq

instance {ε α : Type} [DecidableEq ε] [DecidableEq α] : DecidableEq (Except ε α) := fun x y =>
  match x, y with
  | .ok a, .ok b =>
    if h : a = b then .isTrue (by rw [h]) else .isFalse (by intro hc; cases hc; exact h rfl)
  | .error a, .error b =>
    if h : a = b then .isTrue (by rw [h]) else .isFalse (by intro hc; cases hc; exact h rfl)
  | .ok _, .error _ => .isFalse (by intro hc; cases hc)
  | .error _, .ok _ => .isFalse (by intro hc; cases hc)

/-- Modelled from the spec: everything observable about one caller action of
the missing channel module: the state it leaves, the requests it sent to the
node, the signer invocations, and its outcome.  A synchronous validation
failure is an `Except.error`; signer aborts are ordinary `.ok` outcomes. -/
structure ActionTrace where
  state : ChannelState
  nodeRequests : List String
  signRequests : List SignRequest
  outcome : Except ChannelActionError AdvanceResult
  deriving DecidableEq

/-- Modelled from the spec: kinds of co-signed off-chain advances
(spec section 3, "Pending action"). -/
inductive ActionKind where
  | transfer
  | deposit
  | withdraw
  | newContract
  | callContract
  deriving DecidableEq

/-- Modelled from the spec: the request method each advance sends
(spec section 4.4, step 1). -/
def methodOf : ActionKind → String
  | .transfer => "channels.update.new"
  | .deposit => "channels.deposit"
  | .withdraw => "channels.withdraw"
  | .newContract => "channels.update.new_contract"
  | .callContract => "channels.update.call_contract"

/-- Modelled from the spec: the tag of the responder acknowledgement sign
request (spec sections 4.4 step 4 and 6; contract operations acknowledge
with `update_ack`, as the integration tests show). -/
def ackTagOf : ActionKind → String
  | .transfer => "update_ack"
  | .deposit => "deposit_ack"
  | .withdraw => "withdraw_ack"
  | .newContract => "update_ack"
  | .callContract => "update_ack"

/-- Modelled from the spec: the transaction blob the node builds for an
advance at the next round (spec section 4.4 step 2; deposits and withdrawals
use their on-chain transaction types per the integration tests). -/
def mkActionTx (kind : ActionKind) (round : Nat) (upds : List UpdateOp) : TxBlob :=
  match kind with
  | .deposit => .channelDeposit round upds
  | .withdraw => .channelWithdraw round upds
  | _ => .channelOffChain round upds

/-- Modelled from the spec: the co-signed off-chain advance protocol of the
missing channel module (spec section 4.4 steps 1-6).  `own` is the response
of the initiating party's untagged signer, `ack` the response of the
counterparty's tagged signer.  An own-signer abort resolves with a bare
`{accepted:false}` (integration test "can abort update sign request"); a
counterparty abort with a numeric code resolves with that code and
`errorMessage = "user-defined"` (spec section 4.4 step 4); acceptance
advances the round by one and stores the co-signed blob (step 5); rejection
leaves the state untouched (step 6). -/
def coSignedAdvance (kind : ActionKind) (st : ChannelState) (upds : List UpdateOp)
    (own ack : SignResult) : ActionTrace :=
  let r := st.round.getD 0
  let tx := mkActionTx kind (r + 1) upds
  let ownReq : SignRequest := { tag := none, tx := tx, updates := upds }
  match own with
  | .abort _ =>
    { state := st, nodeRequests := [methodOf kind], signRequests := [ownReq],
      outcome := .ok { accepted := false, signedTx := none,
                       errorCode := none, errorMessage := none } }
  | .reject =>
    { state := st, nodeRequests := [methodOf kind], signRequests := [ownReq],
      outcome := .ok { accepted := false, signedTx := none,
                       errorCode := none, errorMessage := none } }
  | .signed _ =>
    let ackReq : SignRequest := { tag := some (ackTagOf kind), tx := tx, updates := upds }
    match ack with
    | .abort code =>
      { state := st, nodeRequests := [methodOf kind], signRequests := [ownReq, ackReq],
        outcome := .ok { accepted := false, signedTx := none,
                         errorCode := some code, errorMessage := some "user-defined" } }
    | .reject =>
      { state := st, nodeRequests := [methodOf kind], signRequests := [ownReq, ackReq],
        outcome := .ok { accepted := false, signedTx := none,
                         errorCode := none, errorMessage := none } }
    | .signed cosigned =>
      { state := { st with round := some (r + 1), lastSignedTx := some cosigned },
        nodeRequests := [methodOf kind], signRequests := [ownReq, ackReq],
        outcome := .ok { accepted := true, signedTx := some cosigned,
                         errorCode := none, errorMessage := none } }

/-- Modelled from the spec: the `update` action surface of the missing channel
module; argument validation fails synchronously before any request reaches
the node (spec section 7, `IllegalArgumentError` for a negative amount). -/
def updateAction (st : ChannelState) (fromAddr toAddr : String) (amount : Int)
    (own ack : SignResult) : ActionTrace :=
  if amount < 0 then
    { state := st, nodeRequests := [], signRequests := [],
      outcome := .error (.illegalArgument "Amount cannot be negative") }
  else
    coSignedAdvance .transfer st
      [.offChainTransfer (toString amount) fromAddr toAddr] own ack

/-- Modelled from the spec: the contract-address derivation of the missing
`encodeContractAddress` helper, a deterministic function of the owner account
and the creation round (spec section 4.4, createContract). -/
def encodeContractAddress (owner : String) (round : Nat) : String :=
  "ct_" ++ owner ++ "_" ++ toString round

/-- Modelled from the spec: the `createContract` action of the missing channel
module; on acceptance it resolves with the address derived from the owner of
the `OffChainNewContract` update and the round after the advance. -/
def createContractAction (st : ChannelState) (owner code callData deposit : String)
    (vmVersion abiVersion : Nat) (own ack : SignResult) : ActionTrace × Option String :=
  let tr := coSignedAdvance .newContract st
    [.offChainNewContract owner code callData deposit vmVersion abiVersion] own ack
  match tr.outcome with
  | .ok res =>
    (tr, if res.accepted then some (encodeContractAddress owner (st.round.getD 0 + 1)) else none)
  | .error _ => (tr, none)

/-- Modelled from the spec: roles of the two parties (spec section 3). -/
inductive Role where
  | initiator
  | responder
  deriving DecidableEq

/-- Modelled from the spec: the tag of the opening sign request for each role
(spec section 4.4, open handshake). -/
def roleSignTag : Role → String
  | .initiator => "initiator_sign"
  | .responder => "responder_sign"

/-- Modelled from the spec: immutable initialization parameters of the missing
channel module that enter the `ChannelCreateTx` (spec sections 3 and 6). -/
structure InitParams where
  initiatorId : String
  responderId : String
  initiatorAmount : Nat
  responderAmount : Nat
  lockPeriod : Nat
  deriving DecidableEq

/-- Modelled from the spec: the `ChannelCreateTx` the node asks both parties
to sign during the open handshake (spec section 3, lifecycle). -/
def mkChannelCreateTx (p : InitParams) : TxBlob :=
  .channelCreate p.initiatorId p.responderId p.initiatorAmount p.responderAmount p.lockPeriod

/-- Whether a blob is a `ChannelCreateTx` carrying the initialization
parameters, as the integration test checks via `unpackTx`. -/
def carriesInitParams (b : TxBlob) (p : InitParams) : Bool :=
  match b with
  | .channelCreate i r ia ra lp =>
    decide (i = p.initiatorId) && decide (r = p.responderId) &&
    decide (ia = p.initiatorAmount) && decide (ra = p.responderAmount) &&
    decide (lp = p.lockPeriod)
  | _ => false

/-- Modelled from the spec: the open handshake of the missing channel module
for one party (spec section 4.4): the node drives the party through one
tagged sign request for the `ChannelCreateTx`; once both sides lock, the
status becomes `open` with `round = 1`.  `assignedFsmId` is the session
identifier the node assigns; a signer abort or rejection leaves the channel
unopened. -/
def openChannel (p : InitParams) (role : Role) (assignedFsmId : String)
    (signResp : SignResult) : Option (ChannelState × List SignRequest) :=
  let tx := mkChannelCreateTx p
  let req : SignRequest := { tag := some (roleSignTag role), tx := tx, updates := [] }
  match signResp with
  | .signed s =>
    some ({ status := .opened, round := some 1,
            fsmId := some assignedFsmId, lastSignedTx := some s }, [req])
  | .abort _ => none
  | .reject => none

/-- Modelled from the spec: the reestablish handshake of the missing channel
module (spec sections 4.4 and 4.7): with `existingFsmId` the FSM sends the
reestablish request and awaits confirmation, calling no signer; on acceptance
the status becomes `open` with the fsmId preserved and the round only defined
when the node replied with state. -/
def reestablishChannel (fsmIdBefore : String) (nodeAccepts : Bool)
    (nodeRound : Option Nat) : Option ChannelState × List SignRequest :=
  if nodeAccepts then
    (some { status := .opened, round := nodeRound,
            fsmId := some fsmIdBefore, lastSignedTx := none }, [])
  else (none, [])

/-- Modelled from the spec: an inbound frame the FSM failed to handle, as
wrapped into a `ChannelIncomingMessageError` (spec section 4.4, error
handling). -/
structure IncomingMessage where
  message : String
  errorMessage : String
  deriving DecidableEq

/-- Modelled from the spec: the synthesized handler error accompanying an
incoming-message error (spec section 7). -/
inductive HandlerError where
  | unknownChannelState (msg : String)
  | classified (name : String)
  deriving DecidableEq

/-- Modelled from the spec: the `ChannelIncomingMessageError` event emitted on
the error bus, carrying the raw inbound message and the handler error. -/
structure ChannelIncomingMessageError where
  incomingMessage : IncomingMessage
  handlerError : HandlerError
  deriving DecidableEq

/-- Modelled from the spec: inbound-error classification of the missing
channel FSM (spec section 4.4): an error frame the FSM can classify may
change state as the FSM decides; one it cannot classify is reported as
`UnknownChannelStateError` with the fixed message, without any transition. -/
def handleIncomingError (fsmKnown : List String)
    (applyClassified : String → ChannelState → ChannelState)
    (st : ChannelState) (msg : IncomingMessage) :
    ChannelState × List ChannelIncomingMessageError :=
  if fsmKnown.contains msg.message then
    (applyClassified msg.message st, [⟨msg, .classified msg.message⟩])
  else
    (st, [⟨msg, .unknownChannelState "State Channels FSM entered unknown state"⟩])

/-- Concrete sample values used by witnesses. -/
def sampleState : ChannelState :=
  { status := .opened, round := some 1, fsmId := none, lastSignedTx := none }

def sampleTx : TxBlob := .channelOffChain 2 []

def sampleParams : InitParams :=
  { initiatorId := "ak_i", responderId := "ak_r",
    initiatorAmount := 100, responderAmount := 100, lockPeriod := 1 }

/-- A well-formed leaf node: two items, high nibble 3 of the first byte. -/
def goodLeaf : List Buffer := [[48], [1]]

/-- An extension node (high nibble 0) whose child hash decodes to `[12, 13]`. -/
def extNode : List Buffer := [[0], [205]]

/-- A sample stand-in for `hash ∘ rlpEncode` giving `goodLeaf` the digest `[171]`. -/
def sampleHashRlp : List Buffer → Buffer := fun nd => if nd = goodLeaf then [171] else [205]

/-- A sample stand-in for `hash ∘ rlpEncode` giving `extNode` the digest `[171]`. -/
def sampleHashRlp2 : List Buffer → Buffer := fun nd => if nd = extNode then [171] else [205]

/-- The tree the constructor yields from the sample binaries below. -/
def sampleTree : MPTree :=
  { rootHash := [10, 11], nodes := [([10, 11], goodLeaf)], isComplete := true }

theorem hexToBuf_bufToHex (b : Buffer) : hexToBuf (bufToHex b) = b := by
  induction b with
  | nil => rfl
  | cons x rest ih =>
    simp only [bufToHex, hexToBuf, ih, List.cons.injEq, and_true]
    omega

theorem bufToHex_roundtrip (b : Buffer) : bufToHex (hexToBuf (bufToHex b)) = bufToHex b := by
  rw [hexToBuf_bufToHex]

theorem mem_keysOf_upsert {m : List (Hex × List Buffer)} {k x : Hex} {v : List Buffer}
    (h : x ∈ keysOf (upsert m k v)) : x ∈ keysOf m ∨ x = k := by
  induction m with
  | nil => simpa [upsert, keysOf] using h
  | cons hd tl ih =>
    obtain ⟨k', v'⟩ := hd
    by_cases he : k' = k
    · simp only [upsert, if_pos he, keysOf, List.map_cons] at h ⊢
      exact Or.inl h
    · simp only [upsert, if_neg he, keysOf, List.map_cons, List.mem_cons] at h ⊢
      rcases h with h | h
      · exact Or.inl (Or.inl h)
      · rcases ih h with h' | h'
        · exact Or.inl (Or.inr h')
        · exact Or.inr h'

theorem mem_keysOf_foldl_upsert {l : List (Hex × List Buffer)} :
    ∀ m x, x ∈ keysOf (l.foldl (fun acc p => upsert acc p.1 p.2) m) →
      x ∈ keysOf m ∨ x ∈ keysOf l := by
  induction l with
  | nil => intro m x h; exact Or.inl h
  | cons hd tl ih =>
    intro m x h
    simp only [List.foldl_cons] at h
    rcases ih _ x h with h' | h'
    · rcases mem_keysOf_upsert h' with h'' | h''
      · exact Or.inl h''
      · exact Or.inr (by simp [keysOf, h''])
    · refine Or.inr ?_
      simp only [keysOf, List.map_cons, List.mem_cons]
      exact Or.inr h'

theorem mem_keysOf_fromEntries {l : List (Hex × List Buffer)} {x : Hex}
    (h : x ∈ keysOf (fromEntries l)) : x ∈ keysOf l := by
  rcases mem_keysOf_foldl_upsert _ x h with h' | h'
  · simp [keysOf] at h'
  · exact h'

theorem nodup_keysOf_upsert {m : List (Hex × List Buffer)} {k : Hex} {v : List Buffer}
    (h : (keysOf m).Nodup) : (keysOf (upsert m k v)).Nodup := by
  induction m with
  | nil => simp [upsert, keysOf]
  | cons hd tl ih =>
    obtain ⟨k', v'⟩ := hd
    simp only [keysOf, List.map_cons, List.nodup_cons] at h
    by_cases he : k' = k
    · simpa [upsert, if_pos he, keysOf, List.nodup_cons] using h
    · simp only [upsert, if_neg he, keysOf, List.map_cons, List.nodup_cons]
      refine ⟨fun hc => ?_, ih h.2⟩
      rcases mem_keysOf_upsert hc with h' | h'
      · exact h.1 h'
      · exact he h'

theorem nodup_keysOf_foldl_upsert {l : List (Hex × List Buffer)} :
    ∀ m, (keysOf m).Nodup →
      (keysOf (l.foldl (fun acc p => upsert acc p.1 p.2) m)).Nodup := by
  induction l with
  | nil => intro m h; exact h
  | cons hd tl ih =>
    intro m h
    simp only [List.foldl_cons]
    exact ih _ (nodup_keysOf_upsert h)

theorem nodup_keysOf_fromEntries (l : List (Hex × List Buffer)) :
    (keysOf (fromEntries l)).Nodup :=
  nodup_keysOf_foldl_upsert [] (by simp [keysOf])

theorem upsert_not_mem {m : List (Hex × List Buffer)} {k : Hex} {v : List Buffer}
    (h : k ∉ keysOf m) : upsert m k v = m ++ [(k, v)] := by
  induction m with
  | nil => rfl
  | cons hd tl ih =>
    obtain ⟨k', v'⟩ := hd
    simp only [keysOf, List.map_cons, List.mem_cons] at h
    push_neg at h
    simp only [upsert, List.cons_append]
    rw [if_neg fun hh => h.1 hh.symm]
    simp only [List.cons.injEq, true_and]
    exact ih h.2

theorem foldl_upsert_nodup {l : List (Hex × List Buffer)} :
    ∀ m, (keysOf (m ++ l)).Nodup →
      l.foldl (fun acc p => upsert acc p.1 p.2) m = m ++ l := by
  induction l with
  | nil => intro m _; simp
  | cons hd tl ih =>
    intro m h
    obtain ⟨k, v⟩ := hd
    have hmem : k ∉ keysOf m := by
      simp only [keysOf, List.map_append, List.map_cons, List.nodup_append,
        List.nodup_cons, List.disjoint_cons_right] at h
      exact fun hc => h.2.2.1 hc
    simp only [List.foldl_cons]
    rw [upsert_not_mem hmem]
    have happ : (m ++ [(k, v)]) ++ tl = m ++ (k, v) :: tl := by simp
    rw [ih (m ++ [(k, v)]) (by rw [happ]; exact h), happ]

theorem fromEntries_self {l : List (Hex × List Buffer)} (h : (keysOf l).Nodup) :
    fromEntries l = l := by
  have := foldl_upsert_nodup (l := l) [] (by simpa [keysOf] using h)
  simpa [fromEntries] using this

theorem map_key_id {l : List (Hex × List Buffer)}
    (h : ∀ p ∈ l, bufToHex (hexToBuf p.1) = p.1) :
    (l.map fun p => (bufToHex (hexToBuf p.1), p.2)) = l := by
  induction l with
  | nil => rfl
  | cons hd tl ih =>
    simp only [List.map_cons, List.cons.injEq]
    constructor
    · have := h hd (by simp)
      exact Prod.ext this rfl
    · exact ih fun p hp => h p (by simp [hp])

theorem mkFrom_ok {hashRlp : List Buffer → Buffer} {rh : Hex}
    {ns : List (Hex × List Buffer)} {t : MPTree}
    (h : mkFrom hashRlp rh ns = .ok t) : t.rootHash = rh ∧ t.nodes = ns := by
  unfold mkFrom at h
  split at h
  · split at h
    · exact absurd h (by simp)
    · simp only [Except.ok.injEq] at h
      subst h; exact ⟨rfl, rfl⟩
  · split at h
    · exact absurd h (by simp)
    · simp only [Except.ok.injEq] at h
      subst h; exact ⟨rfl, rfl⟩

theorem mkMPTree_serialize {hashRlp : List Buffer → Buffer} {b : MPTreeBinary} {t : MPTree}
    (h : mkMPTree hashRlp b = .ok t) : mkMPTree hashRlp t.serialize = .ok t := by
  obtain ⟨hrh, hns⟩ := mkFrom_ok h
  have hkeys : ∀ p ∈ t.nodes, bufToHex (hexToBuf p.1) = p.1 := by
    intro p hp
    have hmem : p.1 ∈ keysOf t.nodes := List.mem_map_of_mem Prod.fst hp
    rw [hns] at hmem
    have hmem' := mem_keysOf_fromEntries hmem
    simp only [keysOf, List.map_map] at hmem'
    obtain ⟨q, _, hq⟩ := List.mem_map.mp hmem'
    simp only [Function.comp] at hq
    rw [← hq]
    exact bufToHex_roundtrip q.1
  have hnodup : (keysOf t.nodes).Nodup := by
    rw [hns]; exact nodup_keysOf_fromEntries _
  show mkFrom hashRlp (bufToHex t.serialize.1) (nodesOfBinary t.serialize) = .ok t
  have h1 : bufToHex t.serialize.1 = t.rootHash := by
    show bufToHex (hexToBuf t.rootHash) = t.rootHash
    rw [hrh]; exact bufToHex_roundtrip b.1
  have h2 : nodesOfBinary t.serialize = t.nodes := by
    show fromEntries ((t.nodes.map fun p => (hexToBuf p.1, p.2)).map
      fun p => (bufToHex p.1, p.2)) = t.nodes
    rw [List.map_map]
    have hmap : (t.nodes.map ((fun p => (bufToHex p.1, p.2)) ∘
        (fun p : Hex × List Buffer => (hexToBuf p.1, p.2)))) = t.nodes := by
      have : ((fun p : Buffer × List Buffer => (bufToHex p.1, p.2)) ∘
          (fun p : Hex × List Buffer => (hexToBuf p.1, p.2))) =
          fun p : Hex × List Buffer => (bufToHex (hexToBuf p.1), p.2) := rfl
      rw [this]
      exact map_key_id hkeys
    rw [hmap]
    exact fromEntries_self hnodup
  rw [h1, h2, hrh, hns]
  exact h

theorem checkNode_ok_hash {hashRlp : List Buffer → Buffer} {nodes : List (Hex × List Buffer)}
    {k : Hex} {node : List Buffer} {c : Bool}
    (h : checkNode hashRlp nodes k node = .ok c) : nodeHash hashRlp node = k := by
  by_cases hh : nodeHash hashRlp node = k
  · exact hh
  · unfold checkNode at h
    rw [if_pos hh] at h
    exact absurd h (by simp)

theorem validateNodes_mem_ok {hashRlp : List Buffer → Buffer}
    {nodes l : List (Hex × List Buffer)} {c : Bool}
    (h : validateNodes hashRlp nodes l = .ok c) :
    ∀ p ∈ l, ∃ c', checkNode hashRlp nodes p.1 p.2 = .ok c' := by
  induction l generalizing c with
  | nil => simp
  | cons hd tl ih =>
    obtain ⟨k, node⟩ := hd
    intro p hp
    simp only [validateNodes] at h
    rcases hck : checkNode hashRlp nodes k node with e | c1
    · rw [hck] at h; exact absurd h (by simp)
    · rw [hck] at h
      rcases hv : validateNodes hashRlp nodes tl with e | c2
      · rw [hv] at h; exact absurd h (by simp)
      · rcases List.mem_cons.mp hp with hp' | hp'
        · subst hp'; exact ⟨c1, hck⟩
        · exact ih hv p hp'

theorem validateNodes_cons_error {hashRlp : List Buffer → Buffer}
    {nodes : List (Hex × List Buffer)} {k : Hex} {node : List Buffer}
    {rest : List (Hex × List Buffer)} {e : MPTreeError}
    (h : checkNode hashRlp nodes k node = .error e) :
    validateNodes hashRlp nodes ((k, node) :: rest) = .error e := by
  simp only [validateNodes, h]

theorem validateNodes_append_error {hashRlp : List Buffer → Buffer}
    {nodes pre rest : List (Hex × List Buffer)} {e : MPTreeError}
    (hpre : ∀ p ∈ pre, ∃ c, checkNode hashRlp nodes p.1 p.2 = .ok c)
    (hrest : validateNodes hashRlp nodes rest = .error e) :
    validateNodes hashRlp nodes (pre ++ rest) = .error e := by
  induction pre with
  | nil => simpa using hrest
  | cons hd tl ih =>
    obtain ⟨k, node⟩ := hd
    obtain ⟨c, hc⟩ := hpre (k, node) (by simp)
    have htl := ih fun p hp => hpre p (by simp [hp])
    simp only [List.cons_append, validateNodes, hc, List.append_eq, htl]

theorem mkFrom_error_of_validate {hashRlp : List Buffer → Buffer} {rh : Hex}
    {ns : List (Hex × List Buffer)} {w : List Buffer} {e : MPTreeError}
    (hroot : lookupKey ns rh = some w)
    (hval : validateNodes hashRlp ns ns = .error e) :
    mkFrom hashRlp rh ns = .error e := by
  unfold mkFrom
  rw [hroot, hval]

theorem mkMPTree_ok_hash_all {hashRlp : List Buffer → Buffer} {b : MPTreeBinary} {t : MPTree}
    (h : mkMPTree hashRlp b = .ok t) :
    ∀ p ∈ t.nodes, nodeHash hashRlp p.2 = p.1 := by
  intro p hp
  unfold mkMPTree mkFrom at h
  split at h
  · split at h
    · exact absurd h (by simp)
    · rename_i hlen
      simp only [Except.ok.injEq] at h
      rw [← h] at hp
      simp only [ne_eq, not_not] at hlen
      rw [List.length_eq_zero.mp hlen] at hp
      simp at hp
  · rename_i hroot
    rcases hv : validateNodes hashRlp (nodesOfBinary b) (nodesOfBinary b) with e | c
    · rw [hv] at h; exact absurd h (by simp)
    · rw [hv] at h
      simp only [Except.ok.injEq] at h
      rw [← h] at hp
      obtain ⟨c', hc⟩ := validateNodes_mem_ok hv p hp
      exact checkNode_ok_hash hc

/-- C1: for every channel and every co-signed off-chain advance (update,
deposit, withdraw, createContract, callContract): if the advance is accepted
by both parties the round after the action equals the round before plus
exactly 1, and if the advance is rejected the round after equals the round
before and `lastSignedTx` is unchanged. -/
theorem coSignedAdvance_round_invariant (kind : ActionKind) (st : ChannelState)
    (upds : List UpdateOp) (own ack : SignResult) (r : Nat) (res : AdvanceResult)
    (hr : st.round = some r)
    (hout : (coSignedAdvance kind st upds own ack).outcome = .ok res) :
    (res.accepted = true → (coSignedAdvance kind st upds own ack).state.round = some (r + 1)) ∧
    (res.accepted = false →
      (coSignedAdvance kind st upds own ack).state.round = some r ∧
      (coSignedAdvance kind st upds own ack).state.lastSignedTx = st.lastSignedTx) := by
  cases own <;> cases ack <;>
    simp only [coSignedAdvance, Except.ok.injEq] at hout <;>
    subst hout <;> simp [coSignedAdvance, hr]

theorem coSignedAdvance_round_invariant_witness :
    (coSignedAdvance .transfer sampleState [] (.signed sampleTx) (.signed sampleTx)).state.round
      = some 2 ∧
    (coSignedAdvance .transfer sampleState [] (.signed sampleTx) .reject).state.round
      = some 1 :=
  ⟨(coSignedAdvance_round_invariant .transfer sampleState [] (.signed sampleTx)
      (.signed sampleTx) 1 _ rfl rfl).1 rfl,
   ((coSignedAdvance_round_invariant .transfer sampleState [] (.signed sampleTx)
      .reject 1 _ rfl rfl).2 rfl).1⟩

/-- C2 counterexample: when the initiating party's own signer returns the
numeric code 12345, the action resolves with a bare `{accepted:false}` whose
`errorCode` is absent, not with `{accepted:false, errorCode:12345,
errorMessage:"user-defined"}` as the claim states for "either party's"
signer. -/
theorem signer_abort_errorCode_counterexample :
    (updateAction sampleState "ak_i" "ak_r" 100 (.abort 12345) .reject).outcome =
      .ok { accepted := false, signedTx := none, errorCode := none, errorMessage := none } ∧
    (updateAction sampleState "ak_i" "ak_r" 100 (.abort 12345) .reject).outcome ≠
      .ok { accepted := false, signedTx := none, errorCode := some 12345,
            errorMessage := some "user-defined" } := by
  exact ⟨rfl, by decide⟩

/-- C2 (amended): a signer abort never propagates as an exception and never
mutates the state: the initiating party's own numeric abort resolves with a
bare `{accepted:false}` carrying no error code; the acknowledging party's
numeric abort resolves with `{accepted:false, errorCode:n,
errorMessage:"user-defined"}`; an abort with no code (null) by either party
resolves with `{accepted:false}` and no errorCode field. -/
theorem signer_abort_resolution (kind : ActionKind) (st : ChannelState)
    (upds : List UpdateOp) (code : Int) (s : TxBlob) (ack : SignResult) :
    ((coSignedAdvance kind st upds (.abort code) ack).state = st ∧
      (coSignedAdvance kind st upds (.abort code) ack).outcome =
        .ok { accepted := false, signedTx := none,
              errorCode := none, errorMessage := none }) ∧
    ((coSignedAdvance kind st upds (.signed s) (.abort code)).state = st ∧
      (coSignedAdvance kind st upds (.signed s) (.abort code)).outcome =
        .ok { accepted := false, signedTx := none,
              errorCode := some code, errorMessage := some "user-defined" }) ∧
    ((coSignedAdvance kind st upds .reject ack).state = st ∧
      (coSignedAdvance kind st upds .reject ack).outcome =
        .ok { accepted := false, signedTx := none,
              errorCode := none, errorMessage := none }) ∧
    ((coSignedAdvance kind st upds (.signed s) .reject).state = st ∧
      (coSignedAdvance kind st upds (.signed s) .reject).outcome =
        .ok { accepted := false, signedTx := none,
              errorCode := none, errorMessage := none }) :=
  ⟨⟨rfl, rfl⟩, ⟨rfl, rfl⟩, ⟨rfl, rfl⟩, ⟨rfl, rfl⟩⟩

/-- C3: for a pair of channels initialized with matching parameters in roles
initiator and responder, after both reach status open both report round 1,
and each party's tagged signer was invoked exactly once, with
`initiator_sign` on the initiator and `responder_sign` on the responder, on
a blob that unpacks to a `ChannelCreateTx` carrying the initialization
amounts. -/
theorem open_channel_handshake (p : InitParams) (fsmI fsmR : String) (sI sR : SignResult)
    (stI stR : ChannelState) (callsI callsR : List SignRequest)
    (hI : openChannel p .initiator fsmI sI = some (stI, callsI))
    (hR : openChannel p .responder fsmR sR = some (stR, callsR)) :
    stI.round = some 1 ∧ stR.round = some 1 ∧
    stI.status = .opened ∧ stR.status = .opened ∧
    callsI = [{ tag := some "initiator_sign", tx := mkChannelCreateTx p, updates := [] }] ∧
    callsR = [{ tag := some "responder_sign", tx := mkChannelCreateTx p, updates := [] }] ∧
    txTypeOf (mkChannelCreateTx p) = .channelCreateTx ∧
    carriesInitParams (mkChannelCreateTx p) p = true := by
  cases sI with
  | abort c => exact absurd hI (by simp [openChannel])
  | reject => exact absurd hI (by simp [openChannel])
  | signed s1 =>
    cases sR with
    | abort c => exact absurd hR (by simp [openChannel])
    | reject => exact absurd hR (by simp [openChannel])
    | signed s2 =>
      simp only [openChannel, Option.some.injEq, Prod.mk.injEq] at hI hR
      obtain ⟨hI1, hI2⟩ := hI
      obtain ⟨hR1, hR2⟩ := hR
      subst hI1; subst hI2; subst hR1; subst hR2
      refine ⟨rfl, rfl, rfl, rfl, rfl, rfl, rfl, ?_⟩
      simp [carriesInitParams, mkChannelCreateTx]

theorem open_channel_handshake_witness :
    ({ status := .opened, round := some 1, fsmId := some "fsm1",
       lastSignedTx := some (mkChannelCreateTx sampleParams) } : ChannelState).round
      = some 1 ∧
    carriesInitParams (mkChannelCreateTx sampleParams) sampleParams = true := by
  have h := open_channel_handshake sampleParams "fsm1" "fsm2"
    (.signed (mkChannelCreateTx sampleParams)) (.signed (mkChannelCreateTx sampleParams))
    _ _ _ _ rfl rfl
  exact ⟨h.1, h.2.2.2.2.2.2.2⟩

/-- C4: for every channel resumed via the reestablish handshake, no signer is
invoked, and once the node accepts, the resumed session is open with the
`fsmId` of the session before it was left, its round being whatever state
the node reported. -/
theorem reestablish_preserves_fsmId (fsmIdBefore : String) (nodeAccepts : Bool)
    (nodeRound : Option Nat) :
    (reestablishChannel fsmIdBefore nodeAccepts nodeRound).2 = [] ∧
    (nodeAccepts = true →
      ∃ st, (reestablishChannel fsmIdBefore nodeAccepts nodeRound).1 = some st ∧
        st.fsmId = some fsmIdBefore ∧ st.status = .opened ∧ st.round = nodeRound) := by
  cases nodeAccepts
  · exact ⟨rfl, by simp⟩
  · exact ⟨rfl, fun _ => ⟨_, rfl, rfl, rfl, rfl⟩⟩

theorem reestablish_preserves_fsmId_witness :
    ∃ st, (reestablishChannel "fsm1" true (some 5)).1 = some st ∧
      st.fsmId = some "fsm1" ∧ st.status = .opened ∧ st.round = some 5 :=
  (reestablish_preserves_fsmId "fsm1" true (some 5)).2 rfl

/-- C5: for every accepted createContract action, the resolved address is the
deterministic function of the owner of the `OffChainNewContract` update and
the round at creation: `encodeContractAddress owner (round_before + 1)`,
which is the round after the advance. -/
theorem create_contract_address (st : ChannelState) (owner code callData deposit : String)
    (vmVersion abiVersion : Nat) (own ack : SignResult) (r : Nat) (addr : String)
    (hr : st.round = some r)
    (haddr : (createContractAction st owner code callData deposit
      vmVersion abiVersion own ack).2 = some addr) :
    addr = encodeContractAddress owner (r + 1) ∧
    (createContractAction st owner code callData deposit
      vmVersion abiVersion own ack).1.state.round = some (r + 1) := by
  cases own <;> cases ack <;>
    simp only [createContractAction, coSignedAdvance] at haddr ⊢ <;>
    simp_all [hr]

theorem create_contract_address_witness :
    encodeContractAddress "ak_owner" 2 = encodeContractAddress "ak_owner" 2 ∧
    (createContractAction sampleState "ak_owner" "cb_code" "cb_cd" "1000" 5 3
      (.signed sampleTx) (.signed sampleTx)).1.state.round = some 2 :=
  create_contract_address sampleState "ak_owner" "cb_code" "cb_cd" "1000" 5 3
    (.signed sampleTx) (.signed sampleTx) 1 (encodeContractAddress "ak_owner" 2) rfl rfl

/-- C6: for every update submitted by a caller with a non-negative amount
whose own signer signs, the co-signed blob round-trips through the update
record: the params delivered to the initiating party's untagged signer and
to the counterparty's tagged `update_ack` signer carry exactly the single
submitted `OffChainTransfer` with the amount as a decimal string and the
submitted from/to addresses, and the blob unpacks to a `ChannelOffChainTx`. -/
theorem update_cosign_roundtrip (st : ChannelState) (fromAddr toAddr : String)
    (amount : Int) (s : TxBlob) (ack : SignResult) (hneg : ¬ amount < 0) :
    (updateAction st fromAddr toAddr amount (.signed s) ack).signRequests =
      [{ tag := none,
         tx := TxBlob.channelOffChain (st.round.getD 0 + 1)
           [UpdateOp.offChainTransfer (toString amount) fromAddr toAddr],
         updates := [UpdateOp.offChainTransfer (toString amount) fromAddr toAddr] },
       { tag := some "update_ack",
         tx := TxBlob.channelOffChain (st.round.getD 0 + 1)
           [UpdateOp.offChainTransfer (toString amount) fromAddr toAddr],
         updates := [UpdateOp.offChainTransfer (toString amount) fromAddr toAddr] }] ∧
    txTypeOf (TxBlob.channelOffChain (st.round.getD 0 + 1)
      [UpdateOp.offChainTransfer (toString amount) fromAddr toAddr]) = .channelOffChainTx := by
  cases ack <;>
    simp [updateAction, if_neg hneg, coSignedAdvance, mkActionTx, ackTagOf, txTypeOf]

theorem update_cosign_roundtrip_witness :
    (updateAction sampleState "ak_i" "ak_r" 100 (.signed sampleTx) (.signed sampleTx)).signRequests =
      [{ tag := none,
         tx := TxBlob.channelOffChain 2 [UpdateOp.offChainTransfer "100" "ak_i" "ak_r"],
         updates := [UpdateOp.offChainTransfer "100" "ak_i" "ak_r"] },
       { tag := some "update_ack",
         tx := TxBlob.channelOffChain 2 [UpdateOp.offChainTransfer "100" "ak_i" "ak_r"],
         updates := [UpdateOp.offChainTransfer "100" "ak_i" "ak_r"] }] ∧
    txTypeOf (TxBlob.channelOffChain 2 [UpdateOp.offChainTransfer "100" "ak_i" "ak_r"])
      = .channelOffChainTx :=
  update_cosign_roundtrip sampleState "ak_i" "ak_r" 100 sampleTx (.signed sampleTx) (by decide)

/-- C7: an inbound error frame the FSM cannot classify is reported on the
error bus as a `ChannelIncomingMessageError` carrying the raw message and an
`UnknownChannelStateError` with message "State Channels FSM entered unknown
state", and the channel does not transition: its state, in particular its
status, is unchanged, so it does not become died and remains usable. -/
theorem unknown_incoming_message_error (fsmKnown : List String)
    (applyClassified : String → ChannelState → ChannelState)
    (st : ChannelState) (msg : IncomingMessage)
    (h : fsmKnown.contains msg.message = false) :
    handleIncomingError fsmKnown applyClassified st msg =
      (st, [⟨msg, .unknownChannelState "State Channels FSM entered unknown state"⟩]) ∧
    (handleIncomingError fsmKnown applyClassified st msg).1 = st ∧
    (st.status ≠ .died →
      (handleIncomingError fsmKnown applyClassified st msg).1.status ≠ .died) := by
  have h' : msg.message ∉ fsmKnown := by simpa using h
  refine ⟨by simp [handleIncomingError, h'], by simp [handleIncomingError, h'], fun hd => ?_⟩
  simpa [handleIncomingError, h'] using hd

theorem unknown_incoming_message_error_witness :
    handleIncomingError ["channels.info"] (fun _ st => st) sampleState
        ⟨"not-existing-method", "Method not found"⟩ =
      (sampleState, [⟨⟨"not-existing-method", "Method not found"⟩,
        .unknownChannelState "State Channels FSM entered unknown state"⟩]) :=
  (unknown_incoming_message_error ["channels.info"] (fun _ st => st) sampleState
    ⟨"not-existing-method", "Method not found"⟩ (by decide)).1

/-- C8: an update with a negative amount fails synchronously at the action
surface with `IllegalArgumentError` ("Amount cannot be negative"), before any
request is sent to the node, and no off-chain advance occurs: the state, in
particular the round, is unchanged and no sign request is issued. -/
theorem update_negative_amount (st : ChannelState) (fromAddr toAddr : String)
    (amount : Int) (own ack : SignResult) (h : amount < 0) :
    updateAction st fromAddr toAddr amount own ack =
      { state := st, nodeRequests := [], signRequests := [],
        outcome := .error (.illegalArgument "Amount cannot be negative") } ∧
    (updateAction st fromAddr toAddr amount own ack).state.round = st.round := by
  constructor <;> simp [updateAction, h]

theorem update_negative_amount_witness :
    updateAction sampleState "ak_i" "ak_r" (-10) (.signed sampleTx) (.signed sampleTx) =
      { state := sampleState, nodeRequests := [], signRequests := [],
        outcome := .error (.illegalArgument "Amount cannot be negative") } :=
  (update_negative_amount sampleState "ak_i" "ak_r" (-10)
    (.signed sampleTx) (.signed sampleTx) (by decide)).1

/-- C9: for every `MPTreeBinary` accepted by the MPTree constructor,
serialize is a right inverse of construction: the constructor accepts the
serialized form and yields the same tree, with equal root hash (so `isEqual`
holds), the same node map, and `get` agreeing on every key. -/
theorem mptree_serialize_right_inverse (hashRlp : List Buffer → Buffer)
    (b : MPTreeBinary) (t : MPTree) (h : mkMPTree hashRlp b = .ok t) :
    ∃ t2, mkMPTree hashRlp t.serialize = .ok t2 ∧ t2.isEqual t = true ∧
      t2.rootHash = t.rootHash ∧ t2.nodes = t.nodes ∧
      ∀ fuel key, t2.get fuel key = t.get fuel key := by
  refine ⟨t, mkMPTree_serialize h, ?_, rfl, rfl, fun _ _ => rfl⟩
  simp [MPTree.isEqual]

theorem mptree_serialize_right_inverse_witness :
    ∃ t2, mkMPTree sampleHashRlp sampleTree.serialize = .ok t2 ∧
      t2.isEqual sampleTree = true ∧
      t2.rootHash = sampleTree.rootHash ∧ t2.nodes = sampleTree.nodes ∧
      ∀ fuel key, t2.get fuel key = sampleTree.get fuel key :=
  mptree_serialize_right_inverse sampleHashRlp ([171], [([171], goodLeaf)]) sampleTree
    (by decide)

/-- C10 counterexample: a binary whose node list contains an entry violating
the hash invariant is not necessarily rejected: when a later entry reuses the
same key, `Object.fromEntries` keeps only the last value, the overwritten
violating node is never checked, and the constructor accepts the binary —
hence it is not rejected with `MerkleTreeHashMismatchError` as the claim
states for "any input binary containing a node violating this". -/
theorem mptree_hashcheck_counterexample :
    (([171], ([] : List Buffer)) ∈
      ([([171], ([] : List Buffer)), ([171], goodLeaf)] : List (Buffer × List Buffer))) ∧
    nodeHash sampleHashRlp [] ≠ bufToHex [171] ∧
    mkMPTree sampleHashRlp ([171], [([171], []), ([171], goodLeaf)]) = .ok sampleTree := by
  refine ⟨by decide, by decide, by decide⟩

/-- C10 (amended): every MPTree the constructor returns satisfies the hash
invariant — each stored node's key equals the digest of the node's RLP
encoding, so no operation ever observes a node failing its hash check; a
binary whose STORED (non-overwritten) node map contains a hash-violating node
is rejected with `MerkleTreeHashMismatchError` provided the root is present
and every entry before it passes its checks; likewise a stored extension node
whose child hash is absent from the node map is rejected with
`MissingNodeInTreeError` when it is the first failure. -/
theorem mptree_hash_invariant (hashRlp : List Buffer → Buffer) (b : MPTreeBinary) :
    (∀ t, mkMPTree hashRlp b = .ok t → ∀ p ∈ t.nodes, nodeHash hashRlp p.2 = p.1) ∧
    (∀ w pre k nd post,
      lookupKey (nodesOfBinary b) (bufToHex b.1) = some w →
      nodesOfBinary b = pre ++ (k, nd) :: post →
      (∀ p ∈ pre, ∃ c, checkNode hashRlp (nodesOfBinary b) p.1 p.2 = .ok c) →
      nodeHash hashRlp nd ≠ k →
      mkMPTree hashRlp b = .error .merkleTreeHashMismatch) ∧
    (∀ w pre k nd post parsed,
      lookupKey (nodesOfBinary b) (bufToHex b.1) = some w →
      nodesOfBinary b = pre ++ (k, nd) :: post →
      (∀ p ∈ pre, ∃ c, checkNode hashRlp (nodesOfBinary b) p.1 p.2 = .ok c) →
      nodeHash hashRlp nd = k →
      parseNode nd = .ok parsed →
      parsed.type = .Extension →
      lookupKey (nodesOfBinary b) (bufToHex (nd.getD 1 [])) = none →
      mkMPTree hashRlp b =
        .error (.missingNodeInTree "Can\x27t find a node by hash in extension node")) := by
  refine ⟨fun t h => mkMPTree_ok_hash_all h, ?_, ?_⟩
  · intro w pre k nd post hroot heq hpre hhash
    have hchk : checkNode hashRlp (nodesOfBinary b) k nd = .error .merkleTreeHashMismatch := by
      unfold checkNode
      rw [if_pos hhash]
    have hv : validateNodes hashRlp (nodesOfBinary b) (pre ++ (k, nd) :: post) =
        .error .merkleTreeHashMismatch :=
      validateNodes_append_error hpre (validateNodes_cons_error hchk)
    exact mkFrom_error_of_validate hroot (heq.symm ▸ hv)
  · intro w pre k nd post parsed hroot heq hpre hhash hparse htype hchild
    have hchk : checkNode hashRlp (nodesOfBinary b) k nd =
        .error (.missingNodeInTree "Can\x27t find a node by hash in extension node") := by
      unfold checkNode
      rw [if_neg (not_not_intro hhash), hparse]
      simp only [htype]
      simpa using hchild
    have hv : validateNodes hashRlp (nodesOfBinary b) (pre ++ (k, nd) :: post) =
        .error (.missingNodeInTree "Can\x27t find a node by hash in extension node") :=
      validateNodes_append_error hpre (validateNodes_cons_error hchk)
    exact mkFrom_error_of_validate hroot (heq.symm ▸ hv)

theorem mptree_hash_invariant_witness :
    nodeHash sampleHashRlp goodLeaf = [10, 11] ∧
    mkMPTree sampleHashRlp ([171], [([171], [])]) = .error .merkleTreeHashMismatch ∧
    mkMPTree sampleHashRlp2 ([171], [([171], extNode)]) =
      .error (.missingNodeInTree "Can\x27t find a node by hash in extension node") :=
  ⟨(mptree_hash_invariant sampleHashRlp ([171], [([171], goodLeaf)])).1
      sampleTree (by decide) ([10, 11], goodLeaf) (by decide),
   (mptree_hash_invariant sampleHashRlp ([171], [([171], [])])).2.1
      [] [] [10, 11] [] [] (by decide) (by decide) (by simp) (by decide),
   (mptree_hash_invariant sampleHashRlp2 ([171], [([171], extNode)])).2.2
      extNode [] [10, 11] extNode [] ⟨.Extension, none, some []⟩
      (by decide) (by decide) (by simp) (by decide) (by decide) rfl (by decide)⟩

end AeppSdk
